import Mathlib

/-!
Shallow embedding of the itinerary engine of `travelbot_mvp_app.py`
(`score_poi`, `plan_itinerary`, the static catalog `POIS` and the slot
table `SLOTS`), together with proofs of the specification's claims about
scoring, stable ranking, variant rotation, round-robin day assignment,
slot-preference overrides and degenerate cases.

Python floats are modelled as `ℚ` (every constant in the source is a small
decimal literal), Python `int` as `Int`/`Nat`, Python lists as `List`,
Python `str.strip` as `pystrip`, and the itinerary dict (whose keys are the
strings `"Day 1" … "Day N"` in insertion order) as an association list
`List (String × List ItineraryItem)`.
-/

/-- A catalog entry, mirroring the dict fields used by the source. -/
structure POI where
  city : String
  name : String
  tags : List String
  avg_stay : Int
  walk_min : Int
  price : String
  notes : String
deriving DecidableEq

/-- The `UserPref` dataclass of the source. -/
structure UserPref where
  city : String
  days : Nat
  interests : List String
  with_kids : Bool
  budget : String
  max_walk_min : Int
  travel_style : String
deriving DecidableEq

def poi_dotonbori : POI :=
  ⟨"osaka", "도톤보리", ["야경", "먹거리", "쇼핑"], 90, 10, "$", "글리코상 앞 포토스팟"⟩

def poi_osakajo : POI :=
  ⟨"osaka", "오사카성 공원", ["역사", "자연"], 120, 20, "$", "벚꽃 시즌 인기"⟩

def poi_umeda : POI :=
  ⟨"osaka", "우메다 스카이빌딩 공중정원", ["야경", "전망"], 80, 15, "$$", "전망대 입장료 유"⟩

def poi_kaiyukan : POI :=
  ⟨"osaka", "가이유칸 수족관", ["가족", "실내", "동물"], 150, 18, "$$$", "아이동반 인기"⟩

def poi_hozenji : POI :=
  ⟨"osaka", "호젠지 요코초", ["레트로", "먹거리", "사진"], 60, 8, "$$", "밤 분위기 좋음"⟩

def poi_bukchon : POI :=
  ⟨"seoul", "북촌 한옥마을", ["전통", "사진", "산책"], 90, 15, "$", "한복체험 연계 가능"⟩

def poi_ddp : POI :=
  ⟨"seoul", "DDP", ["현대건축", "전시", "사진"], 70, 12, "$", "전시 변동"⟩

def poi_namsan : POI :=
  ⟨"seoul", "남산서울타워", ["전망", "야경"], 80, 20, "$$", "케이블카 옵션"⟩

def poi_gwangjang : POI :=
  ⟨"seoul", "광장시장", ["먹거리", "재래시장"], 60, 10, "$", "빈대떡·마약김밥"⟩

/-- The static catalog `POIS` of the source, in declaration order. -/
def POIS : List POI :=
  [poi_dotonbori, poi_osakajo, poi_umeda, poi_kaiyukan, poi_hozenji,
   poi_bukchon, poi_ddp, poi_namsan, poi_gwangjang]

/-- The fixed ordered slot table of the source. -/
def SLOTS : List String := ["Morning", "Lunch", "Afternoon", "Dinner", "Night"]

/-- Python's `str.lower()`: lower-case every character. -/
def pylower (s : String) : String :=
  ⟨s.data.map Char.toLower⟩

/-- Python's `str.strip()`: remove leading and trailing whitespace. -/
def pystrip (s : String) : String :=
  ⟨((s.data.dropWhile fun c => c.isWhitespace).reverse.dropWhile
      fun c => c.isWhitespace).reverse⟩

/-- `score_poi` of the source: city gate, walking-distance gate, then an
additive accumulation of interest overlap, family bonus, night/scenic bonus
and a travel-style bonus. -/
def score_poi (poi : POI) (pref : UserPref) : ℚ :=
  if pylower poi.city ≠ pylower pref.city then -1
  else if poi.walk_min > pref.max_walk_min then -0.5
  else
    let overlap : ℕ := (poi.tags.toFinset ∩ ((pref.interests.map pystrip).toFinset)).card
    let s0 : ℚ := overlap * 2.0
    let s1 : ℚ :=
      if pref.with_kids ∧ ("가족" ∈ poi.tags ∨ "실내" ∈ poi.tags) then s0 + 1.5 else s0
    let s2 : ℚ := if "야경" ∈ poi.tags ∨ "전망" ∈ poi.tags then s1 + 0.8 else s1
    if pref.travel_style = "relax" then
      (if "자연" ∈ poi.tags ∨ "산책" ∈ poi.tags ∨ "카페" ∈ poi.tags then s2 + 1.5 else s2)
    else if pref.travel_style = "foodie" then
      (if "먹거리" ∈ poi.tags then s2 + 2.0 else s2)
    else if pref.travel_style = "sightseeing" then
      (if "역사" ∈ poi.tags ∨ "전통" ∈ poi.tags ∨ "전망" ∈ poi.tags then s2 + 1.5 else s2)
    else if pref.travel_style = "shopping" then
      (if "쇼핑" ∈ poi.tags ∨ "재래시장" ∈ poi.tags then s2 + 1.5 else s2)
    else s2

/-- The comparison used by `sorted(POIS, key=..., reverse=True)`: `p` may
come before `q` iff `p`'s score is at least `q`'s. -/
def scoreRel (pref : UserPref) (p q : POI) : Prop :=
  score_poi q pref ≤ score_poi p pref

instance (pref : UserPref) : DecidableRel (scoreRel pref) :=
  fun p q => inferInstanceAs (Decidable (score_poi q pref ≤ score_poi p pref))

/-- `sorted(POIS, key=lambda p: score_poi(p, pref), reverse=True)`:
a stable descending sort of the catalog. -/
def rankedSorted (pref : UserPref) : List POI :=
  POIS.insertionSort (scoreRel pref)

/-- `[p for p in ranked if score_poi(p, pref) > 0]`. -/
def rankedFiltered (pref : UserPref) : List POI :=
  (rankedSorted pref).filter fun p => decide (0 < score_poi p pref)

/-- The ranked list actually allocated for a given variant index: the
source rotates left by `variant % len(ranked)` when `variant > 0` and the
filtered list has more than one element. -/
def rankedForVariant (pref : UserPref) (variant : Nat) : List POI :=
  let r := rankedFiltered pref
  if 0 < variant ∧ 1 < r.length then
    r.drop (variant % r.length) ++ r.take (variant % r.length)
  else r

/-- One allocated itinerary entry, with the fields the source copies out of
the POI dict. -/
structure ItineraryItem where
  slot : String
  name : String
  tags : List String
  eta_min : Int
  walk_min : Int
  price : String
  notes : String
deriving DecidableEq

/-- The dict appended to a day's plan by the source loop. -/
def mkItem (slot : String) (poi : POI) : ItineraryItem :=
  ⟨slot, poi.name, poi.tags, poi.avg_stay, poi.walk_min, poi.price, poi.notes⟩

/-- The slot chosen for a POI given the day's items so far: the default is
`SLOTS[len(day_plan) % len(SLOTS)]`; a night-view/scenic POI prefers `Night`,
then `Dinner`, before falling back to the default. -/
def chooseSlot (day_plan : List ItineraryItem) (poi : POI) : String :=
  let slot := SLOTS.getD (day_plan.length % SLOTS.length) ""
  if "야경" ∈ poi.tags ∨ "전망" ∈ poi.tags then
    if "Night" ∉ day_plan.map (fun it => it.slot) then "Night"
    else if "Dinner" ∉ day_plan.map (fun it => it.slot) then "Dinner"
    else slot
  else slot

/-- The day-dict key `f"Day {d}"`. -/
def dayLabel (d : Nat) : String := "Day " ++ toString d

/-- The itinerary dict: keys in insertion order with their item lists. -/
abbrev Itin := List (String × List ItineraryItem)

/-- Reading `itinerary[day_name]` (the source only reads keys it created;
a missing key yields `[]` here rather than a fault). -/
def lookupD (m : Itin) (k : String) : List ItineraryItem :=
  match m with
  | [] => []
  | (k₁, v) :: rest => if k₁ = k then v else lookupD rest k

/-- Writing back `itinerary[day_name]` (the source mutates the day's list
in place; here the entry is replaced). -/
def updateAssoc (m : Itin) (k : String) (v : List ItineraryItem) : Itin :=
  m.map fun kv => if kv.1 = k then (k, v) else kv

/-- One iteration of the allocation loop for the `i`-th ranked POI. -/
def placeOne (days : Nat) (itin : Itin) (i : Nat) (poi : POI) : Itin :=
  let day_name := dayLabel (i % days + 1)
  let day_plan := lookupD itin day_name
  updateAssoc itin day_name (day_plan ++ [mkItem (chooseSlot day_plan poi) poi])

/-- `for i, poi in enumerate(ranked)`, starting at index `i`. -/
def allocLoop (days : Nat) (itin : Itin) (i : Nat) : List POI → Itin
  | [] => itin
  | poi :: rest => allocLoop days (placeOne days itin i poi) (i + 1) rest

/-- `{f"Day {d}": [] for d in range(1, days + 1)}`. -/
def initItin (days : Nat) : Itin :=
  (List.range' 1 days).map fun d => (dayLabel d, [])

/-- The dict returned by `plan_itinerary`. -/
structure PlanResult where
  city : String
  days : Nat
  itinerary : Itin
deriving DecidableEq

/-- `plan_itinerary` of the source: rank and filter the catalog, return the
all-empty-days dict when nothing survives, otherwise rotate for the variant
and distribute round-robin over days with slot selection. -/
def plan_itinerary (pref : UserPref) (variant : Nat) : PlanResult :=
  if rankedFiltered pref = [] then
    { city := pref.city, days := pref.days, itinerary := initItin pref.days }
  else
    { city := pref.city, days := pref.days,
      itinerary := allocLoop pref.days (initItin pref.days) 0 (rankedForVariant pref variant) }

/-! ### Specification-side definitions (worded from the claims, for
comparison against the source embedding) -/

/-- The slot the specification promises for a POI with the given tags,
given the items already in that day: night-view/scenic POIs take `Night` if
unused, else `Dinner` if unused, else the default `SLOTS[len % 5]`; others
always take the default. -/
def expectedSlot (prior : List ItineraryItem) (tags : List String) : String :=
  if "야경" ∈ tags ∨ "전망" ∈ tags then
    if "Night" ∉ prior.map (fun it => it.slot) then "Night"
    else if "Dinner" ∉ prior.map (fun it => it.slot) then "Dinner"
    else SLOTS.getD (prior.length % 5) ""
  else SLOTS.getD (prior.length % 5) ""

/-- The number of distinct tags shared between `poi.tags` and
`pref.interests` read verbatim (no whitespace stripping) — the overlap as
claim C1 literally words it. -/
def overlapLiteral (poi : POI) (pref : UserPref) : ℕ :=
  (poi.tags.toFinset ∩ pref.interests.toFinset).card

/-- The overlap the source actually computes: interests are stripped of
surrounding whitespace first. -/
def overlapStripped (poi : POI) (pref : UserPref) : ℕ :=
  (poi.tags.toFinset ∩ ((pref.interests.map pystrip).toFinset)).card

/-- Claim C1's family bonus. -/
def kidsBonus (poi : POI) (pref : UserPref) : ℚ :=
  if pref.with_kids ∧ ("가족" ∈ poi.tags ∨ "실내" ∈ poi.tags) then 1.5 else 0

/-- Claim C1's flat night-view / scenic-overlook bonus. -/
def nightBonus (poi : POI) : ℚ :=
  if "야경" ∈ poi.tags ∨ "전망" ∈ poi.tags then 0.8 else 0

/-- Claim C1's style bonus: at most one applies, selected by
`pref.travel_style`; `mixed` or anything unrecognized gets none. -/
def styleBonus (poi : POI) (pref : UserPref) : ℚ :=
  if pref.travel_style = "relax" then
    (if "자연" ∈ poi.tags ∨ "산책" ∈ poi.tags ∨ "카페" ∈ poi.tags then 1.5 else 0)
  else if pref.travel_style = "foodie" then
    (if "먹거리" ∈ poi.tags then 2.0 else 0)
  else if pref.travel_style = "sightseeing" then
    (if "역사" ∈ poi.tags ∨ "전통" ∈ poi.tags ∨ "전망" ∈ poi.tags then 1.5 else 0)
  else if pref.travel_style = "shopping" then
    (if "쇼핑" ∈ poi.tags ∨ "재래시장" ∈ poi.tags then 1.5 else 0)
  else 0

/-- A pair of strings where the second is the first surrounded by extra
(possibly empty) leading and trailing whitespace. -/
def PadRel (s t : String) : Prop :=
  ∃ l r : List Char, (∀ c ∈ l, c.isWhitespace = true) ∧ (∀ c ∈ r, c.isWhitespace = true) ∧
    t.data = l ++ s.data ++ r

/-! ### Proof-side helper definitions -/

/-- Building one day's item list by repeatedly appending with the slot rule
(the shape each day of the final itinerary takes). -/
def buildDayFrom (acc : List ItineraryItem) : List POI → List ItineraryItem
  | [] => acc
  | poi :: rest => buildDayFrom (acc ++ [mkItem (chooseSlot acc poi) poi]) rest

/-- The POIs that land on day `d` (1-based) when the list is consumed from
loop index `i` with `days` days: those at loop index `j` with
`j % days + 1 = d`, in order. -/
def selectDay (days : Nat) : Nat → List POI → Nat → List POI
  | _, [], _ => []
  | i, poi :: rest, d =>
    if i % days + 1 = d then poi :: selectDay days (i + 1) rest d
    else selectDay days (i + 1) rest d

/-- An itinerary dict whose day `d` holds `g d`. -/
def shapedItin (days : Nat) (g : Nat → List ItineraryItem) : Itin :=
  (List.range' 1 days).map fun d => (dayLabel d, g d)

/-- The character list `Nat.repr` produces (big-endian decimal digits). -/
def digitsRep (n : Nat) : List Char :=
  if n = 0 then ['0'] else ((Nat.digits 10 n).map Nat.digitChar).reverse

/-- The end-to-end scenario preference of claim C8. -/
def pref8 : UserPref := ⟨"osaka", 1, ["야경"], false, "$$", 20, "mixed"⟩

/-- A preference matching no catalog city (every score is the sentinel). -/
def prefNowhere : UserPref := ⟨"nowhere", 1, [], false, "$$", 20, "mixed"⟩

/-- An osaka preference whose filtered ranking has four entries. -/
def pref9 : UserPref := ⟨"osaka", 2, ["야경", "먹거리", "역사"], false, "$$", 20, "mixed"⟩

/-- A synthetic POI whose tag carries leading whitespace (tags are compared
verbatim by the source). -/
def poi_padtag : POI := ⟨"osaka", "패딩", [" 야경"], 10, 10, "$", ""⟩

/-! ### `Nat.repr` is injective (day labels are distinct) -/

theorem toDigitsCore_eq_digitsRep :
    ∀ (n fuel : Nat) (ds : List Char), n < fuel →
      Nat.toDigitsCore 10 fuel n ds = digitsRep n ++ ds := by
  intro n
  induction n using Nat.strong_induction_on with
  | _ n ih =>
    intro fuel ds hlt
    match fuel, hlt with
    | fuel + 1, hlt =>
      show Nat.toDigitsCore 10 (fuel + 1) n ds = digitsRep n ++ ds
      simp only [Nat.toDigitsCore]
      by_cases h0 : n / 10 = 0
      · rw [if_pos h0]
        by_cases hn : n = 0
        · subst hn; rfl
        · have hlt10 : n < 10 := by omega
          rw [digitsRep, if_neg hn,
            Nat.digits_def' (by norm_num : (1:ℕ) < 10) (Nat.pos_of_ne_zero hn), h0,
            Nat.digits_zero]
          simp [Nat.mod_eq_of_lt hlt10]
      · rw [if_neg h0]
        have hpos : 0 < n := by omega
        have hd : n / 10 < n := Nat.div_lt_self hpos (by norm_num)
        have hf : n / 10 < fuel := by omega
        rw [ih (n / 10) hd fuel (Nat.digitChar (n % 10) :: ds) hf]
        have hrep : digitsRep n = digitsRep (n / 10) ++ [Nat.digitChar (n % 10)] := by
          rw [digitsRep, digitsRep, if_neg (by omega : ¬ n = 0), if_neg h0,
            Nat.digits_def' (by norm_num : (1:ℕ) < 10) hpos]
          simp
        rw [hrep, List.append_assoc]
        simp

theorem natRepr_data (n : Nat) : (Nat.repr n).data = digitsRep n := by
  show ((Nat.toDigits 10 n).asString).data = digitsRep n
  rw [Nat.toDigits, toDigitsCore_eq_digitsRep n (n + 1) [] (Nat.lt_succ_self n)]
  simp [List.asString]

theorem digitChar_toNat (n : Nat) (h : n < 10) : (Nat.digitChar n).toNat = 48 + n := by
  interval_cases n <;> rfl

theorem digitChar_inj (a b : Nat) (ha : a < 10) (hb : b < 10)
    (h : Nat.digitChar a = Nat.digitChar b) : a = b := by
  have h2 := congrArg Char.toNat h
  rw [digitChar_toNat a ha, digitChar_toNat b hb] at h2
  omega

theorem map_digitChar_inj :
    ∀ (l₁ l₂ : List ℕ), (∀ x ∈ l₁, x < 10) → (∀ x ∈ l₂, x < 10) →
      l₁.map Nat.digitChar = l₂.map Nat.digitChar → l₁ = l₂ := by
  intro l₁
  induction l₁ with
  | nil =>
    intro l₂ _ _ h
    cases l₂ with
    | nil => rfl
    | cons b t => simp at h
  | cons a t ih =>
    intro l₂ h1 h2 h
    cases l₂ with
    | nil => simp at h
    | cons b t₂ =>
      simp only [List.map_cons, List.cons.injEq] at h
      have ha := h1 a (List.mem_cons_self a t)
      have hb := h2 b (List.mem_cons_self b t₂)
      rw [digitChar_inj a b ha hb h.1,
        ih t₂ (fun x hx => h1 x (List.mem_cons_of_mem _ hx))
          (fun x hx => h2 x (List.mem_cons_of_mem _ hx)) h.2]

theorem digitsRep_eq_singleton_zero (k : Nat) (h : digitsRep k = ['0']) : k = 0 := by
  by_contra hk
  rw [digitsRep, if_neg hk] at h
  have h' : (Nat.digits 10 k).map Nat.digitChar = ['0'] := by
    have h2 := congrArg List.reverse h
    simpa using h2
  cases hD : Nat.digits 10 k with
  | nil => rw [hD] at h'; simp at h'
  | cons d tl =>
    rw [hD] at h'
    simp only [List.map_cons, List.cons.injEq, List.map_eq_nil_iff] at h'
    obtain ⟨h1, h2⟩ := h'
    have hdlt : d < 10 :=
      Nat.digits_lt_base (by norm_num) (by rw [hD]; exact List.mem_cons_self d tl)
    have hd0 : d = 0 := digitChar_inj d 0 hdlt (by norm_num) (by rw [h1]; rfl)
    have hof := Nat.ofDigits_digits 10 k
    rw [hD, hd0, h2] at hof
    simp [Nat.ofDigits] at hof
    omega

theorem digitsRep_inj (m n : Nat) (h : digitsRep m = digitsRep n) : m = n := by
  by_cases hm : m = 0 <;> by_cases hn : n = 0
  · rw [hm, hn]
  · have h2 : digitsRep n = ['0'] := by rw [← h, hm]; rfl
    rw [hm, digitsRep_eq_singleton_zero n h2]
  · have h2 : digitsRep m = ['0'] := by rw [h, hn]; rfl
    rw [hn, digitsRep_eq_singleton_zero m h2]
  · rw [digitsRep, if_neg hm, digitsRep, if_neg hn] at h
    have h' := List.reverse_injective h
    have hdig := map_digitChar_inj _ _
      (fun x hx => Nat.digits_lt_base (by norm_num) hx)
      (fun x hx => Nat.digits_lt_base (by norm_num) hx) h'
    have h1 := Nat.ofDigits_digits 10 m
    have h2 := Nat.ofDigits_digits 10 n
    rw [hdig] at h1
    exact h1.symm.trans h2

theorem dayLabel_inj : Function.Injective dayLabel := by
  intro a b h
  have hdata := congrArg String.data h
  simp only [dayLabel, String.data_append] at hdata
  have h2 : (Nat.repr a).data = (Nat.repr b).data := List.append_cancel_left hdata
  rw [natRepr_data, natRepr_data] at h2
  exact digitsRep_inj a b h2

/-! ### Whitespace stripping -/

theorem dropWhile_append_all {p : Char → Bool} :
    ∀ (l t : List Char), (∀ c ∈ l, p c = true) →
      List.dropWhile p (l ++ t) = List.dropWhile p t := by
  intro l
  induction l with
  | nil => intro t _; rfl
  | cons a l ih =>
    intro t h
    have ha := h a (List.mem_cons_self a l)
    simp only [List.cons_append, List.dropWhile_cons, ha, if_true]
    exact ih t fun c hc => h c (List.mem_cons_of_mem _ hc)

theorem dropWhile_append_of_ne_nil {p : Char → Bool} :
    ∀ (m r : List Char), List.dropWhile p m ≠ [] →
      List.dropWhile p (m ++ r) = List.dropWhile p m ++ r := by
  intro m
  induction m with
  | nil => intro r h; exact absurd rfl h
  | cons a t ih =>
    intro r h
    by_cases hp : p a = true
    · simp only [List.dropWhile_cons, hp, if_true] at h
      simp only [List.cons_append, List.dropWhile_cons, hp, if_true]
      exact ih r h
    · have hp2 : p a = false := by
        cases hq : p a
        · rfl
        · exact absurd hq hp
      simp only [List.cons_append, List.dropWhile_cons, hp2]
      simp

theorem pystrip_pad {s t : String} (h : PadRel s t) : pystrip t = pystrip s := by
  obtain ⟨l, r, hl, hr, ht⟩ := h
  unfold pystrip
  rw [ht]
  apply congrArg String.mk
  rw [List.append_assoc, dropWhile_append_all l _ hl]
  by_cases hs : List.dropWhile (fun c => c.isWhitespace) s.data = []
  · have hall : ∀ c ∈ s.data, c.isWhitespace = true := by
      intro c hc
      exact List.dropWhile_eq_nil_iff.1 hs c hc
    rw [dropWhile_append_all s.data r hall,
      show List.dropWhile (fun c : Char => c.isWhitespace) r = [] from
        List.dropWhile_eq_nil_iff.2 hr, hs]
  · rw [dropWhile_append_of_ne_nil s.data r hs, List.reverse_append,
      dropWhile_append_all r.reverse _ (fun c hc => hr c (List.mem_reverse.1 hc))]

theorem map_pystrip_of_forall₂ {xs ys : List String} (h : List.Forall₂ PadRel xs ys) :
    ys.map pystrip = xs.map pystrip := by
  induction h with
  | nil => rfl
  | cons h1 _ ih => simp [pystrip_pad h1, ih]

/-! ### Score facts -/

theorem score_pos_city {poi : POI} {pref : UserPref} (h : 0 < score_poi poi pref) :
    pylower poi.city = pylower pref.city := by
  by_contra hne
  rw [score_poi, if_pos hne] at h
  norm_num at h

/-! ### Ranking facts -/

theorem POIS_nodup : POIS.Nodup := by decide

theorem POIS_name_inj : ∀ p ∈ POIS, ∀ q ∈ POIS, p.name = q.name → p = q := by decide

theorem rankedSorted_nodup (pref : UserPref) : (rankedSorted pref).Nodup :=
  (List.Perm.nodup_iff (List.perm_insertionSort _ _)).2 POIS_nodup

theorem rankedFiltered_nodup (pref : UserPref) : (rankedFiltered pref).Nodup :=
  (rankedSorted_nodup pref).filter _

theorem mem_rankedFiltered {pref : UserPref} {q : POI} (h : q ∈ rankedFiltered pref) :
    q ∈ POIS ∧ 0 < score_poi q pref := by
  have h2 := List.mem_filter.1 h
  exact ⟨(List.mem_insertionSort (scoreRel pref)).1 h2.1, of_decide_eq_true h2.2⟩

theorem mem_rankedForVariant {pref : UserPref} {v : Nat} {q : POI}
    (h : q ∈ rankedForVariant pref v) : q ∈ rankedFiltered pref := by
  dsimp only [rankedForVariant] at h
  by_cases hc : 0 < v ∧ 1 < (rankedFiltered pref).length
  · rw [if_pos hc] at h
    rcases List.mem_append.1 h with h2 | h2
    · exact List.mem_of_mem_drop h2
    · exact List.mem_of_mem_take h2
  · rwa [if_neg hc] at h

theorem rankedForVariant_zero (pref : UserPref) :
    rankedForVariant pref 0 = rankedFiltered pref := by
  unfold rankedForVariant
  simp

theorem rankedForVariant_eq_rotate (pref : UserPref) (v : Nat)
    (h : 1 < (rankedFiltered pref).length) :
    rankedForVariant pref v =
      (rankedFiltered pref).rotate (v % (rankedFiltered pref).length) := by
  unfold rankedForVariant
  by_cases hv : 0 < v
  · rw [if_pos ⟨hv, h⟩,
      List.rotate_eq_drop_append_take (le_of_lt (Nat.mod_lt v (by omega)))]
  · have hv0 : v = 0 := by omega
    subst hv0
    rw [if_neg (by simp), Nat.zero_mod, List.rotate_zero]

/-! ### Allocation loop characterization -/

theorem lookupD_ranged (g : Nat → List ItineraryItem) :
    ∀ (cnt s d : Nat), s ≤ d → d < s + cnt →
      lookupD ((List.range' s cnt).map fun e => (dayLabel e, g e)) (dayLabel d) = g d := by
  intro cnt
  induction cnt with
  | zero => intro s d h1 h2; omega
  | succ k ih =>
    intro s d h1 h2
    rw [List.range'_succ]
    simp only [List.map_cons, lookupD]
    by_cases hsd : s = d
    · subst hsd; simp
    · rw [if_neg fun hEq => hsd (dayLabel_inj hEq)]
      exact ih (s + 1) d (by omega) (by omega)

theorem updateAssoc_ranged (g : Nat → List ItineraryItem) (v : List ItineraryItem)
    (d cnt s : Nat) :
    updateAssoc ((List.range' s cnt).map fun e => (dayLabel e, g e)) (dayLabel d) v =
      (List.range' s cnt).map fun e => (dayLabel e, if e = d then v else g e) := by
  unfold updateAssoc
  rw [List.map_map]
  apply List.map_congr_left
  intro e _
  by_cases hed : e = d
  · subst hed; simp
  · have hne : dayLabel e ≠ dayLabel d := fun hEq => hed (dayLabel_inj hEq)
    simp [Function.comp, hne, hed]

theorem placeOne_shaped (days : Nat) (hdays : 0 < days) (g : Nat → List ItineraryItem)
    (i : Nat) (poi : POI) :
    placeOne days (shapedItin days g) i poi =
      shapedItin days fun d =>
        if d = i % days + 1 then g d ++ [mkItem (chooseSlot (g d) poi) poi] else g d := by
  have hmod : i % days < days := Nat.mod_lt i hdays
  unfold placeOne shapedItin
  dsimp only
  rw [lookupD_ranged g days 1 (i % days + 1) (by omega) (by omega), updateAssoc_ranged]
  apply List.map_congr_left
  intro e _
  by_cases hed : e = i % days + 1
  · subst hed; simp
  · simp [hed]

theorem allocLoop_shaped (days : Nat) (hdays : 0 < days) :
    ∀ (pois : List POI) (i : Nat) (g : Nat → List ItineraryItem),
      allocLoop days (shapedItin days g) i pois =
        shapedItin days fun d => buildDayFrom (g d) (selectDay days i pois d) := by
  intro pois
  induction pois with
  | nil => intro i g; rfl
  | cons poi rest ih =>
    intro i g
    show allocLoop days (placeOne days (shapedItin days g) i poi) (i + 1) rest = _
    rw [placeOne_shaped days hdays g i poi, ih (i + 1) _]
    unfold shapedItin
    apply List.map_congr_left
    intro e _
    dsimp only
    by_cases hed : e = i % days + 1
    · subst hed
      have hsel : selectDay days i (poi :: rest) (i % days + 1) =
          poi :: selectDay days (i + 1) rest (i % days + 1) := by
        simp [selectDay]
      rw [hsel]
      simp only [if_pos rfl]
      rfl
    · have h1 : ¬ (i % days + 1 = e) := fun hEq => hed hEq.symm
      simp only [selectDay, if_neg h1, if_neg hed]

theorem allocLoop_nil_itin (days : Nat) :
    ∀ (pois : List POI) (i : Nat), allocLoop days [] i pois = [] := by
  intro pois
  induction pois with
  | nil => intro i; rfl
  | cons poi rest ih =>
    intro i
    show allocLoop days (placeOne days [] i poi) (i + 1) rest = []
    have h1 : placeOne days [] i poi = [] := rfl
    rw [h1]
    exact ih (i + 1)

theorem plan_itinerary_days_zero (pref : UserPref) (v : Nat) (h : pref.days = 0) :
    (plan_itinerary pref v).itinerary = [] := by
  unfold plan_itinerary
  by_cases hr : rankedFiltered pref = []
  · rw [if_pos hr]
    show initItin pref.days = []
    rw [h]
    rfl
  · rw [if_neg hr]
    show allocLoop pref.days (initItin pref.days) 0 (rankedForVariant pref v) = []
    rw [h]
    exact allocLoop_nil_itin 0 _ 0

theorem initItin_eq_shaped (days : Nat) : initItin days = shapedItin days fun _ => [] := rfl

theorem plan_itinerary_shape (pref : UserPref) (v : Nat) (hdays : 0 < pref.days) :
    (plan_itinerary pref v).itinerary =
      shapedItin pref.days fun d =>
        buildDayFrom [] (selectDay pref.days 0 (rankedForVariant pref v) d) := by
  unfold plan_itinerary
  by_cases hr : rankedFiltered pref = []
  · rw [if_pos hr]
    show initItin pref.days = _
    have hv : rankedForVariant pref v = [] := by
      dsimp only [rankedForVariant]
      rw [hr]
      simp
    rw [hv]
    rfl
  · rw [if_neg hr]
    show allocLoop pref.days (initItin pref.days) 0 (rankedForVariant pref v) = _
    rw [initItin_eq_shaped, allocLoop_shaped pref.days hdays _ 0 _]

theorem shapedItin_keys (days : Nat) (g : Nat → List ItineraryItem) :
    (shapedItin days g).map Prod.fst = (List.range' 1 days).map dayLabel := by
  unfold shapedItin
  rw [List.map_map]
  rfl

theorem mem_shapedItin {days : Nat} {g : Nat → List ItineraryItem}
    {e : String × List ItineraryItem} (h : e ∈ shapedItin days g) :
    ∃ d, e = (dayLabel d, g d) := by
  obtain ⟨d, _, hd⟩ := List.mem_map.1 h
  exact ⟨d, hd.symm⟩

theorem buildDayFrom_map_name :
    ∀ (ps : List POI) (acc : List ItineraryItem),
      (buildDayFrom acc ps).map (fun it => it.name) =
        acc.map (fun it => it.name) ++ ps.map fun p => p.name := by
  intro ps
  induction ps with
  | nil => intro acc; simp [buildDayFrom]
  | cons poi rest ih =>
    intro acc
    show (buildDayFrom (acc ++ [mkItem (chooseSlot acc poi) poi]) rest).map _ = _
    rw [ih]
    simp [mkItem]

theorem selectDay_eq_filter (days : Nat) :
    ∀ (l : List POI) (i d : Nat),
      selectDay days i l d =
        ((l.enumFrom i).filter fun ip => decide (ip.1 % days + 1 = d)).map Prod.snd := by
  intro l
  induction l with
  | nil => intro i d; rfl
  | cons poi rest ih =>
    intro i d
    simp only [List.enumFrom_cons, List.filter_cons]
    by_cases hc : i % days + 1 = d
    · simp [selectDay, hc, ih]
    · simp [selectDay, hc, ih]

theorem mem_selectDay (days : Nat) :
    ∀ {l : List POI} {i d : Nat} {q : POI}, q ∈ selectDay days i l d → q ∈ l := by
  intro l
  induction l with
  | nil => intro i d q h; exact absurd h (List.not_mem_nil q)
  | cons poi rest ih =>
    intro i d q h
    by_cases hc : i % days + 1 = d
    · simp only [selectDay, if_pos hc] at h
      rcases List.mem_cons.1 h with h2 | h2
      · exact h2 ▸ List.mem_cons_self poi rest
      · exact List.mem_cons_of_mem _ (ih h2)
    · simp only [selectDay, if_neg hc] at h
      exact List.mem_cons_of_mem _ (ih h)

theorem chooseSlot_eq_expectedSlot (dp : List ItineraryItem) (poi : POI) :
    chooseSlot dp poi = expectedSlot dp poi.tags := rfl

theorem buildDayFrom_slot_spec :
    ∀ (ps : List POI) (acc : List ItineraryItem),
      (∀ j (hj : j < acc.length),
        (acc.get ⟨j, hj⟩).slot = expectedSlot (acc.take j) (acc.get ⟨j, hj⟩).tags) →
      ∀ j (hj : j < (buildDayFrom acc ps).length),
        ((buildDayFrom acc ps).get ⟨j, hj⟩).slot =
          expectedSlot ((buildDayFrom acc ps).take j)
            ((buildDayFrom acc ps).get ⟨j, hj⟩).tags := by
  intro ps
  induction ps with
  | nil => intro acc h; exact h
  | cons poi rest ih =>
    intro acc h
    show ∀ j (hj : j < (buildDayFrom (acc ++ [mkItem (chooseSlot acc poi) poi]) rest).length), _
    apply ih
    intro j hj
    have hjlen : j < acc.length + 1 := by
      have := hj
      simp at this
      omega
    by_cases hja : j < acc.length
    · have hget : (acc ++ [mkItem (chooseSlot acc poi) poi]).get ⟨j, hj⟩ = acc.get ⟨j, hja⟩ := by
        simp [List.get_eq_getElem, List.getElem_append_left hja]
      have htake : (acc ++ [mkItem (chooseSlot acc poi) poi]).take j = acc.take j := by
        rw [List.take_append_of_le_length (le_of_lt hja)]
      rw [hget, htake]
      exact h j hja
    · have hje : j = acc.length := by omega
      subst hje
      have hget : (acc ++ [mkItem (chooseSlot acc poi) poi]).get ⟨acc.length, hj⟩ =
          mkItem (chooseSlot acc poi) poi := by
        simp [List.get_eq_getElem]
      have htake : (acc ++ [mkItem (chooseSlot acc poi) poi]).take acc.length = acc :=
        List.take_left acc _
      rw [hget, htake]
      exact chooseSlot_eq_expectedSlot acc poi

/-! ### Claims -/

/-- C1 (amended): `score_poi` returns the sentinel `-1` (negative) when the
cities differ case-insensitively; otherwise the penalty `-0.5` (not strictly
positive) when the POI walks farther than `max_walk_min`; otherwise exactly
`2.0` per distinct tag shared between `poi.tags` and the
whitespace-stripped `pref.interests`, plus the family, night/scenic and
style bonuses. -/
theorem claim_C1_amended (poi : POI) (pref : UserPref) :
    (pylower poi.city ≠ pylower pref.city →
      score_poi poi pref = -1 ∧ score_poi poi pref < 0) ∧
    (pylower poi.city = pylower pref.city → pref.max_walk_min < poi.walk_min →
      score_poi poi pref = -0.5 ∧ ¬ 0 < score_poi poi pref) ∧
    (pylower poi.city = pylower pref.city → poi.walk_min ≤ pref.max_walk_min →
      score_poi poi pref =
        2.0 * overlapStripped poi pref + kidsBonus poi pref + nightBonus poi +
          styleBonus poi pref) := by
  refine ⟨fun h1 => ?_, fun h1 h2 => ?_, fun h1 h2 => ?_⟩
  · rw [score_poi, if_pos h1]
    norm_num
  · rw [score_poi, if_neg fun hne => hne h1, if_pos h2]
    norm_num
  · rw [score_poi, if_neg fun hne => hne h1, if_neg (not_lt.2 h2)]
    dsimp only
    unfold overlapStripped kidsBonus nightBonus styleBonus
    split_ifs <;> ring

/-- C1 witness: the three branches of the amended claim at concrete inputs
(a Seoul POI against an osaka preference, an over-distance POI, and
Dōtonbori in the additive branch). -/
theorem claim_C1_witness :
    score_poi poi_bukchon pref8 = -1 ∧
    score_poi poi_osakajo ⟨"osaka", 1, [], false, "$$", 15, "mixed"⟩ = -0.5 ∧
    score_poi poi_dotonbori pref8 =
      2.0 * overlapStripped poi_dotonbori pref8 + kidsBonus poi_dotonbori pref8 +
        nightBonus poi_dotonbori + styleBonus poi_dotonbori pref8 :=
  ⟨((claim_C1_amended poi_bukchon pref8).1 (by decide)).1,
   ((claim_C1_amended poi_osakajo ⟨"osaka", 1, [], false, "$$", 15, "mixed"⟩).2.1
      (by decide) (by decide)).1,
   (claim_C1_amended poi_dotonbori pref8).2.2 (by decide) (by decide)⟩

/-- C1 counterexample: with the interest list `[" 야경"]` (leading space),
Dōtonbori is in the additive branch, but its score (the source strips the
interest and counts the overlap) differs from claim C1's literal formula,
which counts tags shared with `pref.interests` verbatim. -/
theorem claim_C1_counterexample :
    pylower poi_dotonbori.city =
        pylower (⟨"osaka", 1, [" 야경"], false, "$$", 20, "mixed"⟩ : UserPref).city ∧
    poi_dotonbori.walk_min ≤
        (⟨"osaka", 1, [" 야경"], false, "$$", 20, "mixed"⟩ : UserPref).max_walk_min ∧
    score_poi poi_dotonbori ⟨"osaka", 1, [" 야경"], false, "$$", 20, "mixed"⟩ ≠
      2.0 * overlapLiteral poi_dotonbori ⟨"osaka", 1, [" 야경"], false, "$$", 20, "mixed"⟩ +
        kidsBonus poi_dotonbori ⟨"osaka", 1, [" 야경"], false, "$$", 20, "mixed"⟩ +
        nightBonus poi_dotonbori +
        styleBonus poi_dotonbori ⟨"osaka", 1, [" 야경"], false, "$$", 20, "mixed"⟩ := by
  refine ⟨by decide, by decide, by decide!⟩

/-- C2: the ranked-and-filtered sequence is descending by score, and two
POIs with equal (positive) scores keep their relative order from the
catalog's declaration order — the sort is stable. -/
theorem claim_C2 (pref : UserPref) :
    (rankedFiltered pref).Sorted (scoreRel pref) ∧
    ∀ p q : POI, score_poi p pref = score_poi q pref → [p, q].Sublist POIS →
      0 < score_poi p pref → [p, q].Sublist (rankedFiltered pref) := by
  constructor
  · haveI : IsTotal POI (scoreRel pref) := ⟨fun _ _ => le_total _ _⟩
    haveI : IsTrans POI (scoreRel pref) := ⟨fun _ _ _ h1 h2 => le_trans h2 h1⟩
    exact List.Pairwise.sublist (List.filter_sublist _)
      (List.sorted_insertionSort (scoreRel pref) POIS)
  · intro p q hscore hsub hpos
    have hr : scoreRel pref p q := le_of_eq hscore.symm
    have h1 : [p, q].Sublist (rankedSorted pref) :=
      List.pair_sublist_insertionSort hr hsub
    have h2 := h1.filter fun x => decide (0 < score_poi x pref)
    have hq : (0 : ℚ) < score_poi q pref := hscore ▸ hpos
    rw [show ([p, q].filter fun x => decide (0 < score_poi x pref)) = [p, q] from by
      simp [List.filter, hpos, hq]] at h2
    exact h2

/-- C2 witness: Dōtonbori and Umeda tie at 2.8 under the scenario
preference and keep catalog order in the filtered ranking. -/
theorem claim_C2_witness :
    [poi_dotonbori, poi_umeda].Sublist (rankedFiltered pref8) :=
  (claim_C2 pref8).2 poi_dotonbori poi_umeda (by decide!) (by decide) (by decide!)

/-- C3: for any variant index, the sequence the allocator consumes is the
variant-0 sequence rotated left by `v mod length` when the filtered length
exceeds one, and is the variant-0 sequence unchanged when the length is at
most one. -/
theorem claim_C3 (pref : UserPref) (v : Nat) :
    (1 < (rankedForVariant pref 0).length →
      rankedForVariant pref v =
        (rankedForVariant pref 0).rotate (v % (rankedForVariant pref 0).length)) ∧
    ((rankedForVariant pref 0).length ≤ 1 →
      rankedForVariant pref v = rankedForVariant pref 0) := by
  rw [rankedForVariant_zero]
  constructor
  · intro h
    exact rankedForVariant_eq_rotate pref v h
  · intro h
    dsimp only [rankedForVariant]
    rw [if_neg fun hc => absurd hc.2 (by omega)]

/-- C3 witness: rotation at variant 3 for the two-element scenario ranking,
and the no-op case for a preference matching no city. -/
theorem claim_C3_witness :
    rankedForVariant pref8 3 =
        (rankedForVariant pref8 0).rotate (3 % (rankedForVariant pref8 0).length) ∧
    rankedForVariant prefNowhere 2 = rankedForVariant prefNowhere 0 :=
  ⟨(claim_C3 pref8 3).1 (by decide!), (claim_C3 prefNowhere 2).2 (by decide!)⟩

/-- C4: for a preference with at least one day, day `d` (1-based) of the
itinerary holds exactly the POIs whose 0-based rank index `i` satisfies
`i % days + 1 = d`, in rank order — strict round-robin distribution. -/
theorem claim_C4 (pref : UserPref) (v : Nat) (hdays : 1 ≤ pref.days)
    (d : Nat) (h1 : 1 ≤ d) (h2 : d ≤ pref.days) :
    (lookupD (plan_itinerary pref v).itinerary (dayLabel d)).map (fun it => it.name) =
      ((rankedForVariant pref v).enum.filter fun ip =>
          decide (ip.1 % pref.days + 1 = d)).map fun ip => ip.2.name := by
  rw [plan_itinerary_shape pref v (by omega)]
  unfold shapedItin
  rw [lookupD_ranged _ pref.days 1 d h1 (by omega), buildDayFrom_map_name]
  simp only [List.map_nil, List.nil_append]
  rw [selectDay_eq_filter pref.days _ 0 d, List.map_map, List.enum_eq_enumFrom]
  rfl

/-- C4 witness: the round-robin characterization of Day 1 in the scenario. -/
theorem claim_C4_witness :
    (lookupD (plan_itinerary pref8 0).itinerary (dayLabel 1)).map (fun it => it.name) =
      ((rankedForVariant pref8 0).enum.filter fun ip =>
          decide (ip.1 % pref8.days + 1 = 1)).map fun ip => ip.2.name :=
  claim_C4 pref8 0 (by decide) 1 (by decide) (by decide)

/-- C5: inside any day of any produced itinerary, the `j`-th item's slot is
exactly the one the slot rule dictates from the items placed earlier that
day: scenic POIs take `Night` when unused, else `Dinner` when unused, else
the default `SLOTS[len % 5]`; other POIs always take the default. -/
theorem claim_C5 (pref : UserPref) (v : Nat) (day : String)
    (items : List ItineraryItem)
    (hmem : (day, items) ∈ (plan_itinerary pref v).itinerary)
    (j : Nat) (hj : j < items.length) :
    (items.get ⟨j, hj⟩).slot = expectedSlot (items.take j) (items.get ⟨j, hj⟩).tags := by
  rcases Nat.eq_zero_or_pos pref.days with h0 | hpos
  · rw [plan_itinerary_days_zero pref v h0] at hmem
    exact absurd hmem (List.not_mem_nil _)
  · rw [plan_itinerary_shape pref v hpos] at hmem
    obtain ⟨d, hd⟩ := mem_shapedItin hmem
    have hitems : items =
        buildDayFrom [] (selectDay pref.days 0 (rankedForVariant pref v) d) :=
      congrArg Prod.snd hd
    subst hitems
    exact buildDayFrom_slot_spec _ [] (fun j hj => absurd hj (Nat.not_lt_zero j)) j hj

/-- C5 witness: in the scenario's Day 1, the second scenic item falls back
to `Dinner` because `Night` is already used. -/
theorem claim_C5_witness :
    (([mkItem "Night" poi_dotonbori, mkItem "Dinner" poi_umeda].get ⟨1, by decide⟩).slot =
      expectedSlot ([mkItem "Night" poi_dotonbori, mkItem "Dinner" poi_umeda].take 1)
        (([mkItem "Night" poi_dotonbori, mkItem "Dinner" poi_umeda].get ⟨1, by decide⟩).tags)) :=
  claim_C5 pref8 0 "Day 1" [mkItem "Night" poi_dotonbori, mkItem "Dinner" poi_umeda]
    (by decide!) 1 (by decide)

/-- C6: for `days = N ≥ 1` the itinerary mapping always has exactly the `N`
keys `"Day 1"` … `"Day N"` in order, all distinct, even when empty; in
particular when no POI scores strictly positively every day is present with
an empty sequence (and `plan_itinerary`, a total function, cannot fault). -/
theorem claim_C6 (pref : UserPref) (v : Nat) (hdays : 1 ≤ pref.days) :
    (plan_itinerary pref v).itinerary.map Prod.fst =
        (List.range' 1 pref.days).map dayLabel ∧
    (plan_itinerary pref v).itinerary.length = pref.days ∧
    ((plan_itinerary pref v).itinerary.map Prod.fst).Nodup ∧
    ((∀ p ∈ POIS, ¬ 0 < score_poi p pref) →
      ∀ e ∈ (plan_itinerary pref v).itinerary, e.2 = ([] : List ItineraryItem)) := by
  have hkeys : (plan_itinerary pref v).itinerary.map Prod.fst =
      (List.range' 1 pref.days).map dayLabel := by
    rw [plan_itinerary_shape pref v (by omega), shapedItin_keys]
  refine ⟨hkeys, ?_, ?_, ?_⟩
  · have hlen := congrArg List.length hkeys
    simpa using hlen
  · rw [hkeys]
    exact (List.nodup_range' 1 pref.days).map dayLabel_inj
  · intro hnone e he
    have hr : rankedFiltered pref = [] := by
      rw [rankedFiltered, List.filter_eq_nil_iff]
      intro a ha
      have ha2 : a ∈ POIS := (List.mem_insertionSort (scoreRel pref)).1 ha
      simpa using hnone a ha2
    rw [plan_itinerary_shape pref v (by omega)] at he
    obtain ⟨d, hd⟩ := mem_shapedItin he
    have hv : rankedForVariant pref v = [] := by
      dsimp only [rankedForVariant]
      rw [hr]
      simp
    have he2 : e.2 =
        buildDayFrom [] (selectDay pref.days 0 (rankedForVariant pref v) d) :=
      congrArg Prod.snd hd
    rw [he2, hv]
    rfl

/-- C6 witness: the scenario's day keys, and an all-empty day for a
preference matching no catalog city. -/
theorem claim_C6_witness :
    (plan_itinerary pref8 0).itinerary.map Prod.fst =
        (List.range' 1 pref8.days).map dayLabel ∧
    (dayLabel 1, ([] : List ItineraryItem)).2 = ([] : List ItineraryItem) :=
  ⟨(claim_C6 pref8 0 (by decide)).1,
   (claim_C6 prefNowhere 0 (by decide)).2.2.2 (by decide!) (dayLabel 1, []) (by decide!)⟩

/-- C7: a catalog POI whose city differs (case-insensitively) from the
preference's city never appears — by name — in any day of the itinerary. -/
theorem claim_C7 (pref : UserPref) (v : Nat) (poi : POI) (hdays : 1 ≤ pref.days)
    (hin : poi ∈ POIS) (hcity : pylower poi.city ≠ pylower pref.city) :
    ∀ e ∈ (plan_itinerary pref v).itinerary, ∀ it ∈ e.2, it.name ≠ poi.name := by
  intro e he it hit hname
  rw [plan_itinerary_shape pref v (by omega)] at he
  obtain ⟨d, hd⟩ := mem_shapedItin he
  have he2 : e.2 =
      buildDayFrom [] (selectDay pref.days 0 (rankedForVariant pref v) d) :=
    congrArg Prod.snd hd
  rw [he2] at hit
  have hnm : it.name ∈
      (buildDayFrom [] (selectDay pref.days 0 (rankedForVariant pref v) d)).map
        fun x => x.name := List.mem_map_of_mem _ hit
  rw [buildDayFrom_map_name] at hnm
  simp only [List.map_nil, List.nil_append] at hnm
  obtain ⟨q, hq, hqname⟩ := List.mem_map.1 hnm
  have hq2 := mem_selectDay pref.days hq
  have hq3 := mem_rankedFiltered (mem_rankedForVariant hq2)
  have hqcity := score_pos_city hq3.2
  have hqp : q = poi := POIS_name_inj q hq3.1 poi hin (hqname.trans hname)
  rw [hqp] at hqcity
  exact hcity hqcity

/-- C7 witness: the Seoul tower POI never appears in the osaka scenario's
Day 1. -/
theorem claim_C7_witness : (mkItem "Night" poi_dotonbori).name ≠ poi_namsan.name :=
  claim_C7 pref8 0 poi_namsan (by decide) (by decide) (by decide)
    ("Day 1", [mkItem "Night" poi_dotonbori, mkItem "Dinner" poi_umeda]) (by decide!)
    (mkItem "Night" poi_dotonbori) (by decide)

/-- C8: the end-to-end scenario — Dōtonbori and Umeda Sky Building both
score exactly 2.8 under `pref8`, the stable ranking keeps Dōtonbori first,
and Day 1 is exactly `[Night: Dōtonbori, Dinner: Umeda Sky Building]`. -/
theorem claim_C8 :
    score_poi poi_dotonbori pref8 = 2.8 ∧
    score_poi poi_umeda pref8 = 2.8 ∧
    rankedForVariant pref8 0 = [poi_dotonbori, poi_umeda] ∧
    lookupD (plan_itinerary pref8 0).itinerary "Day 1" =
      [mkItem "Night" poi_dotonbori, mkItem "Dinner" poi_umeda] := by
  refine ⟨by decide!, by decide!, by decide!, by decide!⟩

/-- C9 counterexample: under the scenario preference the filtered ranking
has length 2 (> 1), yet variant 2 rotates by `2 % 2 = 0` and coincides with
variant 0 — the three variant sequences are not pairwise distinct. -/
theorem claim_C9_counterexample :
    1 < (rankedForVariant pref8 0).length ∧
    rankedForVariant pref8 2 = rankedForVariant pref8 0 := by
  refine ⟨by decide!, by decide!⟩

/-- C9 (amended): when the filtered ranking has more than two entries, the
variant 0, 1 and 2 sequences are pairwise distinct, each obtained from the
variant-0 sequence purely by rotation (no re-scoring). -/
theorem claim_C9_amended (pref : UserPref)
    (h : 2 < (rankedForVariant pref 0).length) :
    (rankedForVariant pref 1 = (rankedForVariant pref 0).rotate 1 ∧
     rankedForVariant pref 2 = (rankedForVariant pref 0).rotate 2) ∧
    rankedForVariant pref 0 ≠ rankedForVariant pref 1 ∧
    rankedForVariant pref 0 ≠ rankedForVariant pref 2 ∧
    rankedForVariant pref 1 ≠ rankedForVariant pref 2 := by
  rw [rankedForVariant_zero] at h ⊢
  have h1 : rankedForVariant pref 1 = (rankedFiltered pref).rotate 1 := by
    rw [rankedForVariant_eq_rotate pref 1 (by omega), Nat.mod_eq_of_lt (by omega)]
  have h2 : rankedForVariant pref 2 = (rankedFiltered pref).rotate 2 := by
    rw [rankedForVariant_eq_rotate pref 2 (by omega), Nat.mod_eq_of_lt (by omega)]
  have hnd := rankedFiltered_nodup pref
  have hget : ∀ (a : Nat) (ha : a < (rankedFiltered pref).length)
      (hh : 0 < ((rankedFiltered pref).rotate a).length),
        ((rankedFiltered pref).rotate a).get ⟨0, hh⟩ =
          (rankedFiltered pref).get ⟨a, ha⟩ := by
    intro a ha hh
    rw [List.get_rotate]
    apply congrArg
    apply Fin.ext
    show (0 + a) % (rankedFiltered pref).length = a
    rw [Nat.zero_add, Nat.mod_eq_of_lt ha]
  have hne : ∀ a b : Nat, a < (rankedFiltered pref).length →
      b < (rankedFiltered pref).length → a ≠ b →
      (rankedFiltered pref).rotate a ≠ (rankedFiltered pref).rotate b := by
    intro a b ha hb hab hEq
    have l1 : 0 < ((rankedFiltered pref).rotate a).length := by
      rw [List.length_rotate]
      omega
    have hg := List.get_of_eq hEq ⟨0, l1⟩
    rw [hget a ha l1] at hg
    rw [hget b hb _] at hg
    have hfin := List.nodup_iff_injective_get.1 hnd hg
    exact hab (by simpa using congrArg Fin.val hfin)
  refine ⟨⟨h1, h2⟩, ?_, ?_, ?_⟩
  · rw [h1]
    intro hEq
    exact hne 0 1 (by omega) (by omega) (by omega)
      (by rw [List.rotate_zero]; exact hEq)
  · rw [h2]
    intro hEq
    exact hne 0 2 (by omega) (by omega) (by omega)
      (by rw [List.rotate_zero]; exact hEq)
  · rw [h1, h2]
    exact hne 1 2 (by omega) (by omega) (by omega)

/-- C9 witness: a four-entry filtered ranking where variants 0 and 1
differ. -/
theorem claim_C9_witness :
    rankedForVariant pref9 0 ≠ rankedForVariant pref9 1 :=
  (claim_C9_amended pref9 (by decide!)).2.1

/-- C10: `score_poi` is invariant under padding any interest string with
leading or trailing whitespace (the source strips interests before the
overlap count), while POI tags are compared verbatim: an interest matching
a tag only after stripping still counts (Dōtonbori with `" 야경 "` scores
2.8), and a tag that matches only after stripping does not (a POI tagged
`" 야경"` scores 0 against the interest `"야경"`). -/
theorem claim_C10 :
    (∀ (poi : POI) (pref : UserPref) (padded : List String),
        List.Forall₂ PadRel pref.interests padded →
        score_poi poi { pref with interests := padded } = score_poi poi pref) ∧
    score_poi poi_dotonbori ⟨"osaka", 1, [" 야경 "], false, "$$", 20, "mixed"⟩ = 2.8 ∧
    score_poi poi_padtag ⟨"osaka", 1, ["야경"], false, "$$", 20, "mixed"⟩ = 0 := by
  refine ⟨?_, by decide!, by decide!⟩
  intro poi pref padded hpad
  have hmap : padded.map pystrip = pref.interests.map pystrip :=
    map_pystrip_of_forall₂ hpad
  unfold score_poi
  dsimp only
  rw [hmap]

/-- C10 witness: padding the scenario's interest with a leading space
leaves Dōtonbori's score unchanged. -/
theorem claim_C10_witness :
    score_poi poi_dotonbori { pref8 with interests := [" 야경"] } =
      score_poi poi_dotonbori pref8 :=
  claim_C10.1 poi_dotonbori pref8 [" 야경"]
    (List.Forall₂.cons ⟨[' '], [], by decide, by decide, by decide⟩ List.Forall₂.nil)
